import Mathlib

/-!
Verification of the xorcist rule-resolution and application engine.

The development shallowly embeds the JavaScript sources:
  * `src/background.js`   — `getMergedRules` (rule resolver, background side);
  * `src/options/options.js` — the `XorcistReplacer` object (`loadRules`,
    `applyAll`, `applyRuleToPage`, `applyRuleByContent`,
    `applyRuleToMatchingElements`, `replaceMatchingText`,
    `applyRuleToTextNode`, `applyRuleToElement`);
  * `src/content/reporter.js` — `generateSelector`.

JS strings are modelled by Lean `String` (inputs are ASCII, so JS
`length`, which counts UTF-16 units, agrees with Lean's character count).
The DOM is modelled by a tree of element and text nodes carrying numeric
identities; detached subtrees are kept in a pool so that the engine's
behaviour on static `querySelectorAll` snapshots (which may visit nodes
removed earlier in the same loop) is preserved.  Browser services the
code calls into (regular expressions, selector matching, HTML parsing)
are abstracted as an environment of functions, since their
implementations live outside this repository.
-/

/-! ### JavaScript string primitives -/

/-- Leading-segment test on lists, auxiliary to `seqContains`. -/
def seqLeads {α : Type} [DecidableEq α] : List α → List α → Bool
  | [], _ => true
  | _ :: _, [] => false
  | a :: ps, b :: bs => a = b && seqLeads ps bs

/-- Contiguous containment of `pat` in a list; auxiliary to `jsIncludes`. -/
def seqContains {α : Type} [DecidableEq α] (pat : List α) : List α → Bool
  | [] => seqLeads pat []
  | b :: bs => seqLeads pat (b :: bs) || seqContains pat bs

/-- JS `s.includes(pat)`: case-sensitive contiguous substring test. -/
def jsIncludes (s pat : String) : Bool := seqContains pat.data s.data

/-- Whitespace characters recognised by JS `trim` / `\s` (ASCII range). -/
def jsWhitespace (c : Char) : Bool :=
  c = ' ' || c = '\t' || c = '\n' || c = '\r' || c = '\x0b' || c = '\x0c'

/-- Drop leading whitespace from a character list. -/
def trimLeft : List Char → List Char
  | [] => []
  | c :: cs => if jsWhitespace c then trimLeft cs else c :: cs

/-- JS `s.trim()`. -/
def jsTrim (s : String) : String :=
  .mk (trimLeft (trimLeft s.data.reverse).reverse)

/-- JS `s.toLowerCase()` (character-wise, length preserving). -/
def jsToLower (s : String) : String := .mk (s.data.map Char.toLower)

/-- The character class stripped by `applyRuleToMatchingElements`
(options.js line 887): whitespace and the punctuation listed in
`/[\s\-–—•·|/\\:,;.!?'"()[\]\x7b\x7d]+/g`. -/
def strippedChars : List Char :=
  [' ', '\t', '\n', '\r', '\x0b', '\x0c', '-', '–', '—', '•', '·', '|', '/', '\\',
   ':', ',', ';', '.', '!', '?', Char.ofNat 39, Char.ofNat 34, '(', ')', '[', ']',
   Char.ofNat 123, Char.ofNat 125]

/-- `text.toLowerCase().replace(/[\s\-–—•·|/\\:,;.!?'"()[\]\x7b\x7d]+/g, '')`
from options.js line 887. -/
def normalizeShort (s : String) : String :=
  .mk ((jsToLower s).data.filter (fun c => !(strippedChars.contains c)))

/-- Truthiness of an optional JS string (`undefined` and `''` are falsy). -/
def optTruthy : Option String → Bool
  | none => false
  | some s => !(s == "")

/-- Coercion of an optional JS string to a string, `undefined` mapping to `''`. -/
def optStr : Option String → String
  | none => ""
  | some s => s

/-- Test of a compiled case-insensitive literal regex `/pat/gi` against `s`
(`pat` lowercase, no metacharacters); used to instantiate the abstract
regex environment at concrete inputs. -/
def litTest (pat s : String) : Bool := seqContains pat.data (jsToLower s).data

/-- Drop `pat` from the front of a list, or `none` when it is not a
leading segment. -/
def dropSeq {α : Type} [DecidableEq α] : List α → List α → Option (List α)
  | [], s => some s
  | _ :: _, [] => none
  | a :: ps, b :: bs => if a = b then dropSeq ps bs else none

/-- Fuelled worker for `litReplaceAll`. -/
def litReplaceGo {α : Type} [DecidableEq α] (pat rep : List α) : Nat → List α → List α
  | _, [] => []
  | 0, s => s
  | fuel + 1, c :: cs =>
    match dropSeq pat (c :: cs) with
    | some rest =>
      if pat.isEmpty then c :: cs else rep ++ litReplaceGo pat rep fuel rest
    | none => c :: litReplaceGo pat rep fuel cs

/-- Replacement of every occurrence of the literal pattern `pat` in `s`
by `r` (the behaviour of `s.replace(/pat/g, r)` for a non-empty literal
pattern); used to instantiate the abstract regex environment at concrete
inputs, whose strings are lowercase so case-insensitivity is immaterial. -/
def litReplaceAll (pat s r : String) : String :=
  .mk (litReplaceGo pat.data r.data s.data.length s.data)

/-! ### Rules and tags (storage schema)

Fields that the JS code reads on rule objects.  Absent fields are
modelled by `none`. -/

structure Tag where
  id : String
  name : String
  color : String
  enabled : Bool
deriving DecidableEq, Repr

structure Rule where
  id : String
  hostname : Option String
  selector : Option String
  contentPattern : Option String
  action : String
  replacement : Option String
  enabled : Option Bool
  tags : Option (List String)
deriving DecidableEq, Repr

/-- `tags.filter(t => !t.enabled).map(t => t.id)` (background.js line 247,
options.js line 747). -/
def disabledTagIdsOf (tags : List Tag) : List String :=
  (tags.filter (fun t => !t.enabled)).map (fun t => t.id)

namespace Background

/-- `isRuleEnabled` closure of background.js lines 250-260: a rule is kept
unless its id is in the disabled set, its own `enabled` field is `false`,
or it has a non-empty tag list containing a disabled tag id. -/
def isRuleEnabled (disabled : List String) (disabledTagIds : List String)
    (rule : Rule) : Bool :=
  if disabled.contains rule.id then false
  else if rule.enabled = some false then false
  else
    match rule.tags with
    | some ts =>
      if ts.length > 0 then
        if ts.any (fun tagId => disabledTagIds.contains tagId) then false else true
      else true
    | none => true

/-- `getMergedRules` of background.js lines 243-267 (the returned
`rules` list): user rules first, then community rules, each filtered by
`isRuleEnabled`. -/
def getMergedRules (communityRules userRules : List Rule)
    (disabledRuleIds : List String) (tags : List Tag) : List Rule :=
  let disabledTagIds := disabledTagIdsOf tags
  let userEff := userRules.filter (isRuleEnabled disabledRuleIds disabledTagIds)
  let communityEff := communityRules.filter (isRuleEnabled disabledRuleIds disabledTagIds)
  userEff ++ communityEff

end Background

namespace XorcistReplacer

/-- `isRuleEnabled` closure of options.js lines 751-761 (textually the
same logic as the background copy, re-translated from that file). -/
def isRuleEnabled (disabled : List String) (disabledTagIds : List String)
    (rule : Rule) : Bool :=
  if disabled.contains rule.id then false
  else if rule.enabled = some false then false
  else
    match rule.tags with
    | some ts =>
      if ts.length > 0 then
        if ts.any (fun tagId => disabledTagIds.contains tagId) then false else true
      else true
    | none => true

/-- `XorcistReplacer.loadRules` of options.js lines 736-768 (the value
assigned to `this.rules`). -/
def loadRules (communityRules userRules : List Rule)
    (disabledRuleIds : List String) (tags : List Tag) : List Rule :=
  let disabledTagIds := disabledTagIdsOf tags
  let userEff := userRules.filter (isRuleEnabled disabledRuleIds disabledTagIds)
  let communityEff := communityRules.filter (isRuleEnabled disabledRuleIds disabledTagIds)
  userEff ++ communityEff

/-- The hostname gate of `applyAll` (options.js lines 788-791): a rule
applies when its `hostname` field is falsy or `'*'`, or the page host
contains it as a substring. -/
def ruleAppliesToHost (hostname : String) (rule : Rule) : Bool :=
  match rule.hostname with
  | none => true
  | some h => if h = "" then true else if h = "*" then true else jsIncludes hostname h

end XorcistReplacer

/-! ### DOM model

Element and text nodes carry numeric identities (`nid` / `tid`, unique
per document by construction) standing for JS object identity.  The
`processed` flag models the `data-xorcist-processed` attribute and
`hidden` models `style.display = 'none'`.  `document.body` is the root
element; `html`/`head` are outside the model. -/

mutual
inductive DNode where
  | textNode (tid : Nat) (content : String)
  | elem (nid : Nat) (tag : String) (processed : Bool) (hidden : Bool) (children : DForest)
deriving DecidableEq, Repr
inductive DForest where
  | nil
  | cons (n : DNode) (rest : DForest)
deriving DecidableEq, Repr
end

def DForest.append : DForest → DForest → DForest
  | .nil, g => g
  | .cons n f, g => .cons n (f.append g)

mutual
/-- JS `node.textContent`: concatenation of all text in the subtree. -/
def DNode.textContent : DNode → String
  | .textNode _ s => s
  | .elem _ _ _ _ cs => DForest.textContent cs
def DForest.textContent : DForest → String
  | .nil => ""
  | .cons n f => n.textContent ++ f.textContent
end

/-- JS `el.children.length`: number of child nodes that are elements
(text nodes are not counted). -/
def DForest.countElemChildren : DForest → Nat
  | .nil => 0
  | .cons (.textNode _ _) f => f.countElemChildren
  | .cons (.elem _ _ _ _ _) f => 1 + f.countElemChildren

/-- The children of an element node (empty for a text node). -/
def DNode.kids : DNode → DForest
  | .textNode _ _ => .nil
  | .elem _ _ _ _ cs => cs

/-- Whether this node is an element with identity `k`. -/
def DNode.hasId (k : Nat) : DNode → Bool
  | .textNode _ _ => false
  | .elem nid _ _ _ _ => nid = k

/-- Tags excluded by the snapshot query
`document.body.querySelectorAll('*:not(script):not(style):not(noscript)')`
of options.js line 867 (the `:not` applies to each element itself, so
descendants of excluded elements are still visited). -/
def excludedScanTags : List String := ["script", "style", "noscript"]

mutual
/-- Element identities of a subtree in document order, excluding
`script`/`style`/`noscript` elements themselves. -/
def DNode.scanIds : DNode → List Nat
  | .textNode _ _ => []
  | .elem nid tag _ _ cs =>
      (if excludedScanTags.contains tag then [] else [nid]) ++ DForest.scanIds cs
def DForest.scanIds : DForest → List Nat
  | .nil => []
  | .cons n f => DNode.scanIds n ++ DForest.scanIds f
end

mutual
/-- Element identities matched by an abstract selector predicate, in
document order, the queried node included (`document.querySelectorAll`). -/
def DNode.selIds (selPred : Nat → String → Bool) : DNode → List Nat
  | .textNode _ _ => []
  | .elem nid tag _ _ cs =>
      (if selPred nid tag then [nid] else []) ++ DForest.selIds selPred cs
def DForest.selIds (selPred : Nat → String → Bool) : DForest → List Nat
  | .nil => []
  | .cons n f => DNode.selIds selPred n ++ DForest.selIds selPred f
end

/-- Parent tags rejected by the tree-walker filter of
`replaceMatchingText` (options.js line 927). -/
def excludedTextTags : List String := ["script", "style", "noscript", "textarea", "input"]

mutual
/-- Text-node collection of the walker in `replaceMatchingText`
(options.js lines 917-948): a text node is collected when its parent's
tag is not excluded, no ancestor (parent included, via
`parent.closest('[data-xorcist-processed]')`) is marked processed, and
the compiled pattern tests true on its content.  `anc` records whether
a processed ancestor has been passed; `ptag` is the parent's tag. -/
def DNode.collectTextIds (test : String → Bool) (anc : Bool) : DNode → List Nat
  | .textNode _ _ => []
  | .elem _ tag proc _ cs => DForest.collectTextIds test (anc || proc) tag cs
def DForest.collectTextIds (test : String → Bool) (anc : Bool) (ptag : String) :
    DForest → List Nat
  | .nil => []
  | .cons (.textNode tid s) f =>
      (if !(excludedTextTags.contains ptag) && !anc && test s then [tid] else []) ++
        DForest.collectTextIds test anc ptag f
  | .cons n f => DNode.collectTextIds test anc n ++ DForest.collectTextIds test anc ptag f
end

/-- View of an element node returned by identity lookup. -/
structure ElemView where
  tag : String
  processed : Bool
  hidden : Bool
  children : DForest
deriving DecidableEq, Repr

mutual
/-- Look up the element with identity `k` in a subtree. -/
def DNode.findElem (k : Nat) : DNode → Option ElemView
  | .textNode _ _ => none
  | .elem nid tag proc hid cs =>
      if nid = k then some ⟨tag, proc, hid, cs⟩ else DForest.findElem k cs
def DForest.findElem (k : Nat) : DForest → Option ElemView
  | .nil => none
  | .cons n f =>
      match DNode.findElem k n with
      | some v => some v
      | none => DForest.findElem k f
end

mutual
/-- Look up the text node with identity `k` together with its parent
element's identity and processed flag (`textNode.parentElement`). -/
def DNode.findTextParent (k : Nat) : DNode → Option (Nat × Bool × String)
  | .textNode _ _ => none
  | .elem nid _ proc _ cs => DForest.findTextParent k nid proc cs
def DForest.findTextParent (k : Nat) (pid : Nat) (pproc : Bool) :
    DForest → Option (Nat × Bool × String)
  | .nil => none
  | .cons (.textNode tid s) f =>
      if tid = k then some (pid, pproc, s) else DForest.findTextParent k pid pproc f
  | .cons n f =>
      match DNode.findTextParent k n with
      | some r => some r
      | none => DForest.findTextParent k pid pproc f
end

mutual
/-- `el.setAttribute('data-xorcist-processed', 'true')` on the element
with identity `k`. -/
def DNode.setProc (k : Nat) : DNode → DNode
  | .textNode t s => .textNode t s
  | .elem nid tag proc hid cs =>
      if nid = k then .elem nid tag true hid cs
      else .elem nid tag proc hid (DForest.setProc k cs)
def DForest.setProc (k : Nat) : DForest → DForest
  | .nil => .nil
  | .cons n f => .cons (DNode.setProc k n) (DForest.setProc k f)
end

mutual
/-- `el.style.display = 'none'` on the element with identity `k`. -/
def DNode.setHidden (k : Nat) : DNode → DNode
  | .textNode t s => .textNode t s
  | .elem nid tag proc hid cs =>
      if nid = k then .elem nid tag proc true cs
      else .elem nid tag proc hid (DForest.setHidden k cs)
def DForest.setHidden (k : Nat) : DForest → DForest
  | .nil => .nil
  | .cons n f => .cons (DNode.setHidden k n) (DForest.setHidden k f)
end

mutual
/-- `el.innerHTML = html` on the element with identity `k`: its children
are replaced by the parsed fragment. -/
def DNode.setChildren (k : Nat) (newKids : DForest) : DNode → DNode
  | .textNode t s => .textNode t s
  | .elem nid tag proc hid cs =>
      if nid = k then .elem nid tag proc hid newKids
      else .elem nid tag proc hid (DForest.setChildren k newKids cs)
def DForest.setChildren (k : Nat) (newKids : DForest) : DForest → DForest
  | .nil => .nil
  | .cons n f => .cons (DNode.setChildren k newKids n) (DForest.setChildren k newKids f)
end

mutual
/-- `textNode.textContent = s` on the text node with identity `k`. -/
def DNode.setText (k : Nat) (s : String) : DNode → DNode
  | .textNode tid old => if tid = k then .textNode tid s else .textNode tid old
  | .elem nid tag proc hid cs => .elem nid tag proc hid (DForest.setText k s cs)
def DForest.setText (k : Nat) (s : String) : DForest → DForest
  | .nil => .nil
  | .cons n f => .cons (DNode.setText k s n) (DForest.setText k s f)
end

mutual
/-- Detach the element with identity `k` from a subtree, returning the
modified subtree and the extracted node (if found below the root). -/
def DNode.extract (k : Nat) : DNode → DNode × Option DNode
  | .textNode t s => (.textNode t s, none)
  | .elem nid tag proc hid cs =>
      let r := DForest.extract k cs
      (.elem nid tag proc hid r.1, r.2)
def DForest.extract (k : Nat) : DForest → DForest × Option DNode
  | .nil => (.nil, none)
  | .cons n f =>
      if n.hasId k then (f, some n)
      else
        match DNode.extract k n with
        | (n2, some x) => (.cons n2 f, some x)
        | (n2, none) =>
          let r := DForest.extract k f
          (.cons n2 r.1, r.2)
end

/-- Like `DForest.extract`, but for the pool of already-detached
subtrees: a pool root has no parent, so `el.remove()` on it is a no-op. -/
def DForest.poolExtract (k : Nat) : DForest → DForest × Option DNode
  | .nil => (.nil, none)
  | .cons n f =>
      if n.hasId k then (.cons n f, none)
      else
        match DNode.extract k n with
        | (n2, some x) => (.cons n2 f, some x)
        | (n2, none) =>
          let r := DForest.poolExtract k f
          (.cons n2 r.1, r.2)

/-! ### Browser environment and page state -/

/-- A compiled JS regular expression object, abstracted by its observable
behaviour in this code: `test` and string replacement of every match. -/
structure JsRegex where
  test : String → Bool
  rep : String → String → String

/-- Browser services used by the replacer: the page hostname,
`new RegExp(p, 'gi')` (returning `none` when construction throws),
selector validity and matching for `querySelectorAll` (matching is
abstracted as a predicate on element identity and tag), and HTML
parsing for `innerHTML` assignment. -/
structure Env where
  hostname : String
  compileRegex : String → Option JsRegex
  selectorValid : String → Bool
  selMatches : String → Nat → String → Bool
  parseHTML : String → DForest

/-- The mutable page: the live `document.body` tree, the pool of
detached subtrees (still reachable through snapshot references), and the
session `appliedCount`. -/
structure PageState where
  root : DNode
  pool : DForest
  count : Nat
deriving DecidableEq, Repr

/-- All nodes reachable from a snapshot reference: the live tree
followed by the detached pool. -/
def PageState.forest (st : PageState) : DForest := .cons st.root st.pool

/-- `el.remove()` on the element with identity `k`: detach it from its
parent (wherever it lives) and keep the subtree in the pool; a no-op on
the body and on parentless pool roots. -/
def PageState.removeNode (k : Nat) (st : PageState) : PageState :=
  if st.root.hasId k then st
  else
    match DNode.extract k st.root with
    | (root2, some x) => { st with root := root2, pool := st.pool.append (.cons x .nil) }
    | (_, none) =>
      let r := st.pool.poolExtract k
      match r.2 with
      | some x => { st with pool := r.1.append (.cons x .nil) }
      | none => st

/-! ### Mutation operations

The mutators are split into a trace generator (the ordered list of
primitive DOM effects the JS function performs) and an executor, so that
effect order is part of the embedding. -/

inductive MutOp where
  | markProcessed (nid : Nat)
  | incCount
  | removeNode (nid : Nat)
  | setInnerHTML (nid : Nat) (html : String)
  | hideNode (nid : Nat)
  | setText (tid : Nat) (s : String)
deriving DecidableEq, Repr

def runOp (env : Env) (st : PageState) : MutOp → PageState
  | .markProcessed k => { st with root := st.root.setProc k, pool := st.pool.setProc k }
  | .incCount => { st with count := st.count + 1 }
  | .removeNode k => st.removeNode k
  | .setInnerHTML k h =>
      { st with root := st.root.setChildren k (env.parseHTML h),
                pool := st.pool.setChildren k (env.parseHTML h) }
  | .hideNode k => { st with root := st.root.setHidden k, pool := st.pool.setHidden k }
  | .setText k s => { st with root := st.root.setText k s, pool := st.pool.setText k s }

def runOps (env : Env) (ops : List MutOp) (st : PageState) : PageState :=
  ops.foldl (runOp env) st

namespace XorcistReplacer

/-- Effect order of `applyRuleToElement` (options.js lines 994-1015): if
the element is already marked processed, nothing happens; otherwise it
is marked, the counter incremented, and then the action applied
(`replace` touches the content only when `rule.replacement` is truthy;
an unknown action falls through the `switch` with no effect). -/
def applyRuleToElementTrace (rule : Rule) (processed : Bool) (nid : Nat) : List MutOp :=
  if processed then []
  else
    [.markProcessed nid, .incCount] ++
      (if rule.action = "remove" then [.removeNode nid]
       else if rule.action = "replace" then
         (if optTruthy rule.replacement then [.setInnerHTML nid (optStr rule.replacement)] else [])
       else if rule.action = "hide" then [.hideNode nid]
       else [])

/-- `applyRuleToElement` (options.js lines 994-1015) on the element with
identity `nid`. -/
def applyRuleToElement (env : Env) (rule : Rule) (nid : Nat) (st : PageState) : PageState :=
  match DForest.findElem nid st.forest with
  | none => st
  | some v => runOps env (applyRuleToElementTrace rule v.processed nid) st

/-- Effect order of `applyRuleToTextNode` (options.js lines 959-989): a
no-op when the parent is missing or already processed or the pattern
fails to recompile; for `remove`/`replace`, the text is rewritten first
and only then is the parent marked and the counter incremented, and
nothing happens when the replacement result equals the existing text. -/
def applyRuleToTextNodeTrace (env : Env) (rule : Rule) (pproc : Bool)
    (pid tid : Nat) (content : String) : List MutOp :=
  if pproc then []
  else
    match env.compileRegex (optStr rule.contentPattern) with
    | none => []
    | some re =>
      if rule.action = "remove" then
        let newText := re.rep content ""
        if newText ≠ content then [.setText tid newText, .markProcessed pid, .incCount]
        else []
      else if rule.action = "replace" then
        let replaced := re.rep content (optStr rule.replacement)
        if replaced ≠ content then [.setText tid replaced, .markProcessed pid, .incCount]
        else []
      else []

/-- `applyRuleToTextNode` (options.js lines 959-989) on the text node
with identity `tid`. -/
def applyRuleToTextNode (env : Env) (rule : Rule) (tid : Nat) (st : PageState) : PageState :=
  match DForest.findTextParent tid 0 false st.forest with
  | none => st
  | some (pid, pproc, content) =>
      runOps env (applyRuleToTextNodeTrace env rule pproc pid tid content) st

/-- The length-tier heuristic of `applyRuleToMatchingElements`
(options.js lines 882-901), deciding `shouldRemove` for an element whose
trimmed text already tests positive. -/
def removeTier (plen : Nat) (text : String) : Bool :=
  if plen ≤ 3 then decide ((normalizeShort text).length ≤ plen + 2)
  else if plen ≤ 20 then decide (text.length ≤ 3 * plen)
  else true

/-- The per-element qualification test of `applyRuleToMatchingElements`
(options.js lines 873-904) for an element already known to be
unprocessed: non-empty trimmed text, a positive regex test, the length
tier, and the leaf-or-short gate
`el.children.length === 0 || text.length < 100`. -/
def elementQualifies (rtest : String → Bool) (plen : Nat) (children : DForest) : Bool :=
  let text := jsTrim children.textContent
  if text = "" then false
  else if !(rtest text) then false
  else
    removeTier plen text &&
      (children.countElemChildren = 0 || text.length < 100)

/-- One iteration of the element loop in `applyRuleToMatchingElements`
(options.js lines 870-908), on the snapshot entry with identity `nid`
looked up in the current page (detached nodes included). -/
def scanStep (env : Env) (rule : Rule) (re : JsRegex) (plen : Nat)
    (st : PageState) (nid : Nat) : PageState :=
  match DForest.findElem nid st.forest with
  | none => st
  | some v =>
    if v.processed then st
    else if elementQualifies re.test plen v.children then
      applyRuleToElement env rule nid st
    else st

/-- `applyRuleToMatchingElements` (options.js lines 865-909): iterate
over a static snapshot of the body's element descendants. -/
def applyRuleToMatchingElements (env : Env) (rule : Rule) (re : JsRegex)
    (st : PageState) : PageState :=
  (DForest.scanIds st.root.kids).foldl
    (scanStep env rule re (optStr rule.contentPattern).length) st

/-- `replaceMatchingText` (options.js lines 915-954): collect the
matching text nodes with the tree walker, then apply the rule to each. -/
def replaceMatchingText (env : Env) (rule : Rule) (re : JsRegex)
    (st : PageState) : PageState :=
  (DNode.collectTextIds re.test false st.root).foldl
    (fun s tid => applyRuleToTextNode env rule tid s) st

/-- `applyRuleByContent` (options.js lines 841-859): compile the pattern
(invalid regex degrades to a no-op), then dispatch on the action:
element-level handling for `remove`/`hide`, text-level for the rest. -/
def applyRuleByContent (env : Env) (rule : Rule) (st : PageState) : PageState :=
  match env.compileRegex (optStr rule.contentPattern) with
  | none => st
  | some re =>
    if rule.action = "remove" || rule.action = "hide" then
      applyRuleToMatchingElements env rule re st
    else replaceMatchingText env rule re st

/-- The selector branch of `applyRuleToPage` (options.js lines 819-830):
`document.querySelectorAll(rule.selector)` inside `try`; an invalid
selector throws and the `catch` falls through with no effect; otherwise
each snapshot element not yet marked processed is mutated. -/
def selectorScan (env : Env) (rule : Rule) (sel : String) (st : PageState) : PageState :=
  if env.selectorValid sel then
    (DNode.selIds (env.selMatches sel) st.root).foldl
      (fun s nid =>
        match DForest.findElem nid s.forest with
        | none => s
        | some v => if v.processed then s else applyRuleToElement env rule nid s) st
  else st

/-- `applyRuleToPage` (options.js lines 815-836). -/
def applyRuleToPage (env : Env) (rule : Rule) (st : PageState) : PageState :=
  if !(optTruthy rule.contentPattern) && !(optTruthy rule.selector) then st
  else
    let st1 := if optTruthy rule.selector then selectorScan env rule (optStr rule.selector) st else st
    if optTruthy rule.contentPattern then applyRuleByContent env rule st1 else st1

/-- `applyAll` (options.js lines 774-810): a no-op when the feature is
disabled; otherwise reset `appliedCount`, filter the loaded rules by the
hostname gate, and apply each applicable rule in order. -/
def applyAll (env : Env) (rules : List Rule) (enabled : Bool) (st : PageState) : PageState :=
  if !enabled then st
  else
    let st0 : PageState := { st with count := 0 }
    let applicableRules := rules.filter (ruleAppliesToHost env.hostname)
    if applicableRules.isEmpty then st0
    else applicableRules.foldl (fun s r => applyRuleToPage env r s) st0

end XorcistReplacer

/-! ### Selector synthesizer (reporter.js) -/

namespace Reporter

/-- The attributes of an element read by `generateSelector`:
`tagName`, `id`, and `className` (`none` models an absent or non-string
class attribute, which the `typeof` guard rejects). -/
structure RElem where
  tagName : String
  idAttr : String
  className : Option String
deriving DecidableEq, Repr

/-- A DOM element subtree as seen by the reporter. -/
inductive RTree where
  | node (e : RElem) (children : List RTree)

def RTree.tag : RTree → String
  | .node e _ => e.tagName

/-- The class part of one path level (reporter.js lines 583-590):
`className.trim().split(/\s+/).slice(0, 2)`, keeping truthy classes that
do not start with `xorcist-`, each appended as `.` + `CSS.escape(cls)`. -/
def classSuffix (esc : String → String) (base : String) (className : Option String) : String :=
  match className with
  | none => base
  | some s =>
    if s = "" then base
    else
      (((jsTrim s).split (fun c => jsWhitespace c)).filter (fun t => t ≠ "")).take 2
        |>.foldl
          (fun acc cls =>
            if cls ≠ "" && !(cls.startsWith "xorcist-") then acc ++ "." ++ esc cls
            else acc)
          base

/-- One level of the selector path (reporter.js lines 580-602): the
lowercased tag name, the class suffix, and `:nth-of-type(i)` whenever
more than one sibling (the element included) shares its tag name;
`i` is the element's 1-based position among the same-tag siblings,
computed from its position `idx` in the parent's child list (standing
for `siblings.indexOf(current)` on object identity). -/
def levelSelector (esc : String → String) (siblings : List RTree) (idx : Nat)
    (e : RElem) : String :=
  let base := jsToLower e.tagName
  let withCls := classSuffix esc base e.className
  let sameTag := siblings.filter (fun t => t.tag = e.tagName)
  if sameTag.length > 1 then
    let pos := ((siblings.take idx).filter (fun t => t.tag = e.tagName)).length + 1
    withCls ++ ":nth-of-type(" ++ toString pos ++ ")"
  else withCls

/-- The element reached from the body by a path of child indices. -/
def targetAt : List RTree → List Nat → Option RElem
  | _, [] => none
  | siblings, i :: rest =>
    match siblings.get? i with
    | none => none
    | some (.node e cs) =>
      match rest with
      | [] => some e
      | _ => targetAt cs rest

/-- The path parts from the child-of-body level down to the target
(reporter.js builds them leaf-to-root with `unshift`; the resulting
root-to-leaf order is constructed here directly). -/
def selectorParts (esc : String → String) : List RTree → List Nat → Option (List String)
  | _, [] => none
  | siblings, i :: rest =>
    match siblings.get? i with
    | none => none
    | some (.node e cs) =>
      match rest with
      | [] => some [levelSelector esc siblings i e]
      | _ =>
        match selectorParts esc cs rest with
        | none => none
        | some parts => some (levelSelector esc siblings i e :: parts)

/-- `generateSelector` (reporter.js lines 571-609) for the element at
`path` under the body: an id short-circuits to `#CSS.escape(id)`;
otherwise the levels from the body boundary down to the element are
joined with `' > '`.  `esc` abstracts `CSS.escape`. -/
def generateSelector (esc : String → String) (bodyChildren : List RTree)
    (path : List Nat) : Option String :=
  match targetAt bodyChildren path with
  | none => none
  | some e =>
    if e.idAttr ≠ "" then some ("#" ++ esc e.idAttr)
    else
      match selectorParts esc bodyChildren path with
      | none => none
      | some parts => some (String.intercalate " > " parts)

end Reporter

/-! ### Spec-side predicates -/

/-- Modelled from the spec: the length-tier wording of claim C4 /
spec §4.2 — "pattern ≤ 3 chars: the text with whitespace/punctuation
stripped is at most 2 characters longer than the pattern; pattern ≤ 20
chars: full text length ≤ 3× pattern length; pattern > 20 chars: any
match suffices". -/
def specTier (plen : Nat) (text : String) : Bool :=
  if plen ≤ 3 then decide ((normalizeShort text).length ≤ plen + 2)
  else if plen ≤ 20 then decide (text.length ≤ 3 * plen)
  else true

/-- Modelled from the spec: the qualification condition exactly as claim
C4 states it — trimmed text matches the pattern, the length tier holds,
and the element is a leaf or its text is under 100 characters.  (Note:
no non-emptiness condition on the trimmed text is stated.) -/
def claimQualifies (rtest : String → Bool) (plen : Nat) (children : DForest) : Bool :=
  let text := jsTrim children.textContent
  rtest text && specTier plen text &&
    (children.countElemChildren = 0 || text.length < 100)

/-! ### Concrete instances

Concrete environments, rules and documents used to evaluate the
embedded engine at specific inputs. -/

/-- A concrete browser environment: the page host is `example.com`;
only the pattern `abcd` compiles, to the literal case-insensitive regex
`/abcd/gi` (every concrete string it is applied to below is lowercase,
so literal matching coincides with case-insensitive matching); every
selector is invalid. -/
def cexEnv : Env where
  hostname := "example.com"
  compileRegex := fun p =>
    if p = "abcd" then some ⟨litTest "abcd", fun s r => litReplaceAll "abcd" s r⟩
    else none
  selectorValid := fun _ => false
  selMatches := fun _ _ _ => false
  parseHTML := fun _ => .nil

/-- A concrete `remove` rule with content pattern `abcd` and no
hostname or selector. -/
def cexRule : Rule :=
  { id := "r1", hostname := none, selector := none, contentPattern := some "abcd",
    action := "remove", replacement := none, enabled := none, tags := none }

/-- A concrete document:
`<body><div>abcd<span>abcd56789</span></div></body>`. -/
def cexTree : DNode :=
  .elem 0 "body" false false
    (.cons (.elem 1 "div" false false
      (.cons (.textNode 2 "abcd")
      (.cons (.elem 3 "span" false false (.cons (.textNode 4 "abcd56789") .nil)) .nil)))
    .nil)

/-- The page state for `cexTree`, nothing detached, count 0. -/
def cexState : PageState := ⟨cexTree, .nil, 0⟩

/-- A concrete `replace` rule with an absent `replacement` field. -/
def wRule10 : Rule :=
  { id := "w10", hostname := none, selector := none, contentPattern := some "x",
    action := "replace", replacement := none, enabled := none, tags := none }

/-- A page whose only element below the body is already marked
processed. -/
def wStateProcessed : PageState :=
  ⟨.elem 0 "body" false false (.cons (.elem 5 "div" true false .nil) .nil), .nil, 0⟩

/-- A concrete rule whose selector is syntactically invalid (unbalanced
bracket) and whose content pattern is an invalid regular expression
(unclosed group). -/
def wRuleBad : Rule :=
  { id := "w5", hostname := none, selector := some "a.bad[", contentPattern := some "(",
    action := "hide", replacement := none, enabled := none, tags := none }

/-! ### Helper lemmas -/

theorem seqLeads_iff {α : Type} [DecidableEq α] (p l : List α) :
    seqLeads p l = true ↔ p <+: l := by
  induction p generalizing l with
  | nil => simp [seqLeads]
  | cons a ps ih =>
    cases l with
    | nil => simp [seqLeads]
    | cons b bs => simp [seqLeads, ih, List.cons_prefix_cons]

theorem seqContains_iff {α : Type} [DecidableEq α] (p l : List α) :
    seqContains p l = true ↔ p <:+: l := by
  induction l with
  | nil => simp [seqContains, seqLeads_iff, List.prefix_nil, List.infix_nil]
  | cons b bs ih => simp [seqContains, seqLeads_iff, ih, List.infix_cons_iff]

theorem jsIncludes_iff (s pat : String) :
    jsIncludes s pat = true ↔ pat.data <:+: s.data := by
  simpa [jsIncludes] using seqContains_iff pat.data s.data

theorem mem_disabledTagIdsOf (tags : List Tag) (tid : String) :
    tid ∈ disabledTagIdsOf tags ↔ ∃ t ∈ tags, t.id = tid ∧ t.enabled = false := by
  simp only [disabledTagIdsOf, List.mem_map, List.mem_filter]
  constructor
  · rintro ⟨t, ⟨ht, he⟩, rfl⟩
    exact ⟨t, ht, rfl, by simpa using he⟩
  · rintro ⟨t, ht, rfl, he⟩
    exact ⟨t, ⟨ht, by simp [he]⟩, rfl⟩

theorem isRuleEnabled_iff (disabled disabledTagIds : List String) (r : Rule) :
    XorcistReplacer.isRuleEnabled disabled disabledTagIds r = true ↔
      (r.id ∉ disabled ∧ r.enabled ≠ some false ∧
        ∀ tid ∈ r.tags.getD [], tid ∉ disabledTagIds) := by
  unfold XorcistReplacer.isRuleEnabled
  rcases htags : r.tags with _ | ts <;> simp only [Option.getD]
  · split_ifs with h1 h2 <;> simp_all
  · cases ts with
    | nil => split_ifs with h1 h2 <;> simp_all
    | cons t0 ts0 =>
      split_ifs with h1 h2 h3 <;> simp_all [List.any_eq_true]
      tauto

/-! ### Claim theorems -/

/-- C1: for all stored user and community rule collections, disabled-id
set, and tag list, a rule (drawn from the collections) appears in the
effective rule list computed by `XorcistReplacer.loadRules` if and only
if its id is not in the disabled set, its own `enabled` flag is not
false, and none of the ids in its `tags` set belongs to a tag whose
`enabled` flag is false (so a rule with an empty or absent tag set is
never excluded by tag logic). -/
theorem c1_effectiveness (userRules communityRules : List Rule)
    (disabledRuleIds : List String) (tags : List Tag) (r : Rule)
    (hmem : r ∈ userRules ∨ r ∈ communityRules) :
    r ∈ XorcistReplacer.loadRules communityRules userRules disabledRuleIds tags ↔
      (r.id ∉ disabledRuleIds ∧ r.enabled ≠ some false ∧
        ∀ tid ∈ r.tags.getD [], ¬ ∃ t ∈ tags, t.id = tid ∧ t.enabled = false) := by
  have hchar :
      XorcistReplacer.isRuleEnabled disabledRuleIds (disabledTagIdsOf tags) r = true ↔
        (r.id ∉ disabledRuleIds ∧ r.enabled ≠ some false ∧
          ∀ tid ∈ r.tags.getD [], ¬ ∃ t ∈ tags, t.id = tid ∧ t.enabled = false) := by
    rw [isRuleEnabled_iff]
    constructor
    · rintro ⟨h1, h2, h3⟩
      exact ⟨h1, h2, fun tid htid => by
        have := h3 tid htid
        rw [mem_disabledTagIdsOf] at this
        exact this⟩
    · rintro ⟨h1, h2, h3⟩
      exact ⟨h1, h2, fun tid htid => by
        rw [mem_disabledTagIdsOf]
        exact h3 tid htid⟩
  unfold XorcistReplacer.loadRules
  simp only [List.mem_append, List.mem_filter]
  constructor
  · rintro (⟨_, hE⟩ | ⟨_, hE⟩) <;> exact hchar.mp hE
  · intro hcond
    rcases hmem with hu | hc
    · exact Or.inl ⟨hu, hchar.mpr hcond⟩
    · exact Or.inr ⟨hc, hchar.mpr hcond⟩

/-- Witness for C1 at a concrete input: a single enabled user rule with
no tags is effective. -/
theorem c1_effectiveness_witness :
    let r : Rule := { id := "u1", hostname := none, selector := none,
                      contentPattern := some "x", action := "remove",
                      replacement := none, enabled := some true, tags := none }
    r ∈ XorcistReplacer.loadRules [] [r] ["c9"] [⟨"t1", "ads", "#fff", false⟩] := by
  intro r
  exact (c1_effectiveness [r] [] ["c9"] [⟨"t1", "ads", "#fff", false⟩] r
      (Or.inl (by simp))).mpr
    (by refine ⟨by simp, by simp, ?_⟩; intro tid htid; simp at htid)

/-- C2: the resolved list is the concatenation of the filtered user
(local) collection followed by the filtered community collection — every
effective local rule precedes every effective community rule, and the
relative (insertion) order within each collection is preserved (each
side is a sublist of its source, never re-sorted). -/
theorem c2_priority (userRules communityRules : List Rule)
    (disabledRuleIds : List String) (tags : List Tag) :
    ∃ effectiveLocal effectiveCommunity : List Rule,
      XorcistReplacer.loadRules communityRules userRules disabledRuleIds tags =
        effectiveLocal ++ effectiveCommunity ∧
      effectiveLocal.Sublist userRules ∧
      effectiveCommunity.Sublist communityRules ∧
      effectiveLocal =
        userRules.filter
          (XorcistReplacer.isRuleEnabled disabledRuleIds (disabledTagIdsOf tags)) ∧
      effectiveCommunity =
        communityRules.filter
          (XorcistReplacer.isRuleEnabled disabledRuleIds (disabledTagIdsOf tags)) :=
  ⟨_, _, rfl, List.filter_sublist _, List.filter_sublist _, rfl, rfl⟩

/-- C8: a rule is skipped by the hostname gate of `applyAll` if and only
if its `hostname` field is set to some `h` other than `*` and the page
host does not contain `h` as a (case-sensitive) contiguous substring;
in particular a rule with absent or `*` hostname is never skipped. -/
theorem c8_hostname_gate (hostname : String) (rule : Rule) :
    XorcistReplacer.ruleAppliesToHost hostname rule = false ↔
      ∃ h, rule.hostname = some h ∧ h ≠ "*" ∧ ¬ h.data <:+: hostname.data := by
  unfold XorcistReplacer.ruleAppliesToHost
  rcases hh : rule.hostname with _ | h
  · simp
  · by_cases h1 : h = ""
    · subst h1
      simp [List.nil_infix]
    · by_cases h2 : h = "*"
      · subst h2
        simp
      · simp only [h1, h2, if_false]
        constructor
        · intro hfalse
          refine ⟨h, rfl, h2, fun hinf => ?_⟩
          rw [← jsIncludes_iff] at hinf
          rw [hinf] at hfalse
          cases hfalse
        · rintro ⟨h3, heq, -, hinf⟩
          cases heq
          rw [← jsIncludes_iff] at hinf
          cases hi : jsIncludes hostname h
          · rfl
          · exact absurd hi hinf

/-- C9: the two resolver implementations are equivalent — for identical
stored `communityRules`, `userRules`, `disabledRuleIds`, and `tags`, the
background-side `getMergedRules` and the content-side
`XorcistReplacer.loadRules` produce identical effective rule lists. -/
theorem c9_resolver_equivalence (communityRules userRules : List Rule)
    (disabledRuleIds : List String) (tags : List Tag) :
    Background.getMergedRules communityRules userRules disabledRuleIds tags =
      XorcistReplacer.loadRules communityRules userRules disabledRuleIds tags := rfl

/-- C7: the selector synthesizer is deterministic — `generateSelector`
reads only the tree (tag names, id and class attributes, sibling
positions), so in the embedding it is a pure function and two calls on
the same node of an unmodified tree return identical strings. -/
theorem c7_selector_deterministic (esc : String → String)
    (bodyChildren : List Reporter.RTree) (path : List Nat) :
    Reporter.generateSelector esc bodyChildren path =
      Reporter.generateSelector esc bodyChildren path := rfl

/-- C4 counterexample: the claim's qualification condition, as stated,
disagrees with the code on an element whose trimmed text is empty.  The
test function `fun _ => true` is the compiled test of the two-character
pattern `x*` (the regex `/x*/gi` tests true on every string, the empty
string included): the claim's conditions all hold for a leaf element
with empty text, yet `applyRuleToMatchingElements` skips such an element
at its `if (!text) continue` guard (options.js line 874). -/
theorem c4_counterexample :
    claimQualifies (fun _ => true) 2 DForest.nil = true ∧
    XorcistReplacer.elementQualifies (fun _ => true) 2 DForest.nil = false := by
  decide

set_option maxRecDepth 1000000 in
/-- C4 (amended): an unprocessed element qualifies for `remove`/`hide`
mutation if and only if its trimmed text is non-empty, matches the
pattern, satisfies the length tier exactly as the claim states it, and
the element is a leaf or its text is under 100 characters.  In
particular an element whose text is exactly the 2-character pattern
`xy` qualifies, and a 500-character paragraph containing `xy` as a
substring does not. -/
theorem c4_remove_heuristic :
    (∀ (rtest : String → Bool) (plen : Nat) (children : DForest),
        XorcistReplacer.elementQualifies rtest plen children =
          (!(jsTrim (DForest.textContent children) == "") &&
            claimQualifies rtest plen children)) ∧
    XorcistReplacer.elementQualifies (litTest "xy") 2
        (.cons (.textNode 1 "xy") .nil) = true ∧
    XorcistReplacer.elementQualifies (litTest "xy") 2
        (.cons (.textNode 1 (String.mk (List.replicate 498 'a' ++ ['x', 'y']))) .nil) =
      false := by
  refine ⟨?_, by decide, by decide⟩
  intro rtest plen children
  unfold XorcistReplacer.elementQualifies claimQualifies
  have hts : specTier = XorcistReplacer.removeTier := rfl
  by_cases h0 : jsTrim (DForest.textContent children) = ""
  · simp [h0]
  · by_cases h1 : rtest (jsTrim (DForest.textContent children)) = true
    · simp [h0, h1, hts, Bool.and_assoc]
    · have h1f : rtest (jsTrim (DForest.textContent children)) = false := by
        simpa using h1
      simp [h0, h1f]

mutual
theorem textContent_setProc_node (k : Nat) (n : DNode) :
    (DNode.setProc k n).textContent = n.textContent := by
  cases n with
  | textNode t s => rfl
  | elem nid tag proc hid cs =>
    by_cases h : nid = k
    · simp [DNode.setProc, h, DNode.textContent]
    · simp [DNode.setProc, h, DNode.textContent, textContent_setProc_forest k cs]
theorem textContent_setProc_forest (k : Nat) (f : DForest) :
    (DForest.setProc k f).textContent = f.textContent := by
  cases f with
  | nil => rfl
  | cons n f =>
    simp [DForest.setProc, DForest.textContent, textContent_setProc_node k n,
      textContent_setProc_forest k f]
end

/-- C10: for every unprocessed element and every `replace` rule whose
`replacement` is absent or empty, `applyRuleToElement` performs exactly
the mark and the counter increment — the element's content is unchanged
(marking preserves `textContent`), the element is marked processed, the
applied-count grows by one, and a marked element is thereafter exempt
from every rule (the mutator trace on a processed element is empty). -/
theorem c10_empty_replacement (env : Env) (rule : Rule) (nid : Nat) (st : PageState)
    (hact : rule.action = "replace")
    (hrep : rule.replacement = none ∨ rule.replacement = some "") :
    XorcistReplacer.applyRuleToElementTrace rule false nid =
        [.markProcessed nid, .incCount] ∧
      runOps env (XorcistReplacer.applyRuleToElementTrace rule false nid) st =
        { root := st.root.setProc nid, pool := st.pool.setProc nid,
          count := st.count + 1 } ∧
      (∀ n : DNode, (DNode.setProc nid n).textContent = n.textContent) ∧
      (∀ rule2 : Rule, XorcistReplacer.applyRuleToElementTrace rule2 true nid = []) := by
  have htr : XorcistReplacer.applyRuleToElementTrace rule false nid =
      [.markProcessed nid, .incCount] := by
    unfold XorcistReplacer.applyRuleToElementTrace
    rcases hrep with h | h <;> simp [hact, h, optTruthy]
  refine ⟨htr, ?_, fun n => textContent_setProc_node nid n, fun rule2 => by
    simp [XorcistReplacer.applyRuleToElementTrace]⟩
  rw [htr]
  rfl

/-- C6 (amended): at element granularity the Mutator marks the node
processed before applying the mutation, for every action; at text-run
granularity however the text mutation is performed first and the parent
is marked processed only afterwards (every non-empty trace is
`[setText, markProcessed, incCount]` in that order), so only the
element-granularity path would keep the node marked if the mutation
itself threw. -/
theorem c6_mark_order :
    (∀ (rule : Rule) (nid : Nat),
        (XorcistReplacer.applyRuleToElementTrace rule false nid).head? =
          some (.markProcessed nid)) ∧
    ∀ (env : Env) (rule : Rule) (pproc : Bool) (pid tid : Nat) (content : String),
      XorcistReplacer.applyRuleToTextNodeTrace env rule pproc pid tid content = [] ∨
      ∃ s : String,
        XorcistReplacer.applyRuleToTextNodeTrace env rule pproc pid tid content =
          [.setText tid s, .markProcessed pid, .incCount] := by
  constructor
  · intro rule nid
    simp [XorcistReplacer.applyRuleToElementTrace]
  · intro env rule pproc pid tid content
    unfold XorcistReplacer.applyRuleToTextNodeTrace
    cases pproc with
    | true => left; simp
    | false =>
      simp only [Bool.false_eq_true, if_false]
      cases hre : env.compileRegex (optStr rule.contentPattern) with
      | none => left; simp
      | some re =>
        by_cases ha : rule.action = "remove"
        · by_cases hne : re.rep content "" = content
          · left; simp [ha, hne]
          · right; exact ⟨re.rep content "", by simp [ha, hne]⟩
        · by_cases ha2 : rule.action = "replace"
          · by_cases hne : re.rep content (optStr rule.replacement) = content
            · left; simp [ha, ha2, hne]
            · right; exact ⟨re.rep content (optStr rule.replacement), by simp [ha, ha2, hne]⟩
          · left; simp [ha, ha2]

/-- C6 counterexample: at text-run granularity the first effect in the
mutator's trace is the text mutation, not the processed mark — for a
concrete `remove` rule on a text node whose content is exactly the
pattern, the trace is `[setText, markProcessed, incCount]`, so the node
is not marked before (or atomically with) the mutation and a throwing
mutation would leave it unmarked. -/
theorem c6_counterexample :
    XorcistReplacer.applyRuleToTextNodeTrace cexEnv cexRule false 1 2 "abcd" =
        [.setText 2 "", .markProcessed 1, .incCount] ∧
      (XorcistReplacer.applyRuleToTextNodeTrace cexEnv cexRule false 1 2 "abcd").head? ≠
        some (.markProcessed 1) := by
  decide

/-- Witness for C10 at a concrete input: the trace of a `replace` rule
with absent replacement on an unprocessed element is exactly the mark
and the counter increment. -/
theorem c10_empty_replacement_witness :
    XorcistReplacer.applyRuleToElementTrace wRule10 false 7 =
      [.markProcessed 7, .incCount] :=
  (c10_empty_replacement cexEnv wRule10 7 cexState rfl (Or.inl rfl)).1

/-- C5: an invalid selector makes the selector strategy a no-op, an
invalid (non-compiling) content pattern makes the content strategy a
no-op, and a rule with both strategies failing contributes zero
mutations while `applyAll` continues processing all other rules — the
run over any rule list containing such a rule equals the run over the
list with that rule removed. -/
theorem c5_invalid_degrade :
    (∀ (env : Env) (rule : Rule) (sel : String) (st : PageState),
        env.selectorValid sel = false →
        XorcistReplacer.selectorScan env rule sel st = st) ∧
    (∀ (env : Env) (rule : Rule) (st : PageState),
        env.compileRegex (optStr rule.contentPattern) = none →
        XorcistReplacer.applyRuleByContent env rule st = st) ∧
    ∀ (env : Env) (rule : Rule) (st : PageState) (rules1 rules2 : List Rule)
      (enabled : Bool),
      (∀ s, rule.selector = some s → env.selectorValid s = false) →
      (∀ p, rule.contentPattern = some p → env.compileRegex p = none) →
      XorcistReplacer.applyAll env (rules1 ++ rule :: rules2) enabled st =
        XorcistReplacer.applyAll env (rules1 ++ rules2) enabled st := by
  have hsel : ∀ (env : Env) (rule : Rule) (sel : String) (st : PageState),
      env.selectorValid sel = false →
      XorcistReplacer.selectorScan env rule sel st = st := by
    intro env rule sel st h
    simp [XorcistReplacer.selectorScan, h]
  have hcontent : ∀ (env : Env) (rule : Rule) (st : PageState),
      env.compileRegex (optStr rule.contentPattern) = none →
      XorcistReplacer.applyRuleByContent env rule st = st := by
    intro env rule st h
    simp [XorcistReplacer.applyRuleByContent, h]
  refine ⟨hsel, hcontent, ?_⟩
  intro env rule st rules1 rules2 enabled hselinv hpatinv
  have hpage : ∀ s : PageState, XorcistReplacer.applyRuleToPage env rule s = s := by
    intro s
    unfold XorcistReplacer.applyRuleToPage
    rcases hs : rule.selector with _ | sel <;> rcases hp : rule.contentPattern with _ | p
    · simp [optTruthy]
    · by_cases hpe : p = ""
      · subst hpe; simp [optTruthy]
      · have hc : env.compileRegex (optStr rule.contentPattern) = none := by
          rw [hp]; simpa [optStr] using hpatinv p hp
        have hcs := hcontent env rule s (by rw [hp] at hc ⊢; exact hc)
        simp [optTruthy, hpe, hcs]
    · by_cases hse : sel = ""
      · subst hse; simp [optTruthy]
      · have hscan := hsel env rule sel s (hselinv sel hs)
        simp [optTruthy, hse, optStr, hscan]
    · by_cases hse : sel = "" <;> by_cases hpe : p = ""
      · subst hse; subst hpe; simp [optTruthy]
      · subst hse
        have hcs := hcontent env rule s (by rw [hp]; simpa [optStr] using hpatinv p hp)
        simp [optTruthy, hpe, hcs]
      · subst hpe
        have hscan := hsel env rule sel s (hselinv sel hs)
        simp [optTruthy, hse, optStr, hscan]
      · have hscan := hsel env rule sel (by exact s) (hselinv sel hs)
        have hcs : ∀ s2 : PageState, XorcistReplacer.applyRuleByContent env rule s2 = s2 :=
          fun s2 => hcontent env rule s2 (by rw [hp]; simpa [optStr] using hpatinv p hp)
        simp [optTruthy, hse, hpe, optStr, hscan, hcs]
  unfold XorcistReplacer.applyAll
  cases enabled with
  | false => rfl
  | true =>
    simp only [Bool.not_true, Bool.false_eq_true, if_false]
    rw [List.filter_append, List.filter_cons, List.filter_append]
    by_cases hg : XorcistReplacer.ruleAppliesToHost env.hostname rule = true
    · rw [if_pos hg]
      set f1 := List.filter (XorcistReplacer.ruleAppliesToHost env.hostname) rules1 with hf1
      set f2 := List.filter (XorcistReplacer.ruleAppliesToHost env.hostname) rules2 with hf2
      have hne : (f1 ++ rule :: f2).isEmpty = false := by
        cases f1 <;> simp [List.isEmpty]
      rw [hne]
      have hfold : (f1 ++ rule :: f2).foldl
            (fun s r => XorcistReplacer.applyRuleToPage env r s) { st with count := 0 } =
          (f1 ++ f2).foldl
            (fun s r => XorcistReplacer.applyRuleToPage env r s) { st with count := 0 } := by
        rw [List.foldl_append, List.foldl_cons, hpage, ← List.foldl_append]
      by_cases hE : (f1 ++ f2).isEmpty = true
      · rw [List.isEmpty_iff] at hE
        rw [hE] at hfold ⊢
        simpa using hfold
      · rw [Bool.not_eq_true] at hE
        rw [hE]
        simpa using hfold
    · rw [if_neg hg]

/-- Witness for C5 at a concrete input: with the invalid-selector,
invalid-pattern rule, `applyAll` equals the run without the rule. -/
theorem c5_invalid_degrade_witness :
    XorcistReplacer.applyAll cexEnv [wRuleBad] true cexState =
      XorcistReplacer.applyAll cexEnv [] true cexState :=
  c5_invalid_degrade.2.2 cexEnv wRuleBad cexState [] [] true
    (fun s hs => by simp [wRuleBad] at hs; rfl)
    (fun p hp => by simp [wRuleBad] at hp; rw [← hp]; rfl)

mutual
theorem collectTextIds_node_anc (test : String → Bool) (n : DNode) :
    DNode.collectTextIds test true n = [] := by
  cases n with
  | textNode t s => rfl
  | elem nid tag proc hid cs =>
    have h := collectTextIds_forest_anc test tag cs
    simp [DNode.collectTextIds, h]
theorem collectTextIds_forest_anc (test : String → Bool) (ptag : String) (f : DForest) :
    DForest.collectTextIds test true ptag f = [] := by
  cases f with
  | nil => rfl
  | cons n g =>
    cases n with
    | textNode tid s =>
      simp [DForest.collectTextIds, collectTextIds_forest_anc test ptag g]
    | elem nid tag proc hid cs =>
      simp [DForest.collectTextIds,
        collectTextIds_node_anc test (.elem nid tag proc hid cs),
        collectTextIds_forest_anc test ptag g]
end

/-- C3 counterexample: two successive `applyAll` calls on the same page,
with no external mutation in between, both apply one mutation — the
second call does not contribute 0.  On
`<body><div>abcd<span>abcd56789</span></div></body>` with the `remove`
rule for pattern `abcd` (length 4, so the tier demands text length
≤ 12): in the first run the `div` has 13 characters of text and is
skipped, while the `span` qualifies and is removed; in the second run
the `div`'s text is now just `abcd`, so the still-unprocessed `div`
newly qualifies and is removed too. -/
theorem c3_counterexample :
    (XorcistReplacer.applyAll cexEnv [cexRule] true cexState).count = 1 ∧
    (XorcistReplacer.applyAll cexEnv [cexRule] true
        (XorcistReplacer.applyAll cexEnv [cexRule] true cexState)).count = 1 := by
  decide

/-- C3 (amended): a node once marked processed is never matched or
mutated again — the mutator trace on a processed element is empty, the
text walker collects nothing below a processed ancestor, and the
element-scan step is the identity on a processed snapshot entry; but the
second of two successive `applyAll` calls may still contribute new
mutations, because a previously-unprocessed ancestor element can newly
qualify once a descendant has been removed, so the two calls' applied
counts need not coincide. -/
theorem c3_processed_permanence :
    (∀ (rule : Rule) (nid : Nat),
        XorcistReplacer.applyRuleToElementTrace rule true nid = []) ∧
    (∀ (test : String → Bool) (ptag : String) (f : DForest),
        DForest.collectTextIds test true ptag f = []) ∧
    ∀ (env : Env) (rule : Rule) (re : JsRegex) (plen : Nat) (st : PageState) (nid : Nat)
      (v : ElemView), DForest.findElem nid st.forest = some v → v.processed = true →
      XorcistReplacer.scanStep env rule re plen st nid = st := by
  refine ⟨fun rule nid => by simp [XorcistReplacer.applyRuleToElementTrace],
    fun test ptag f => collectTextIds_forest_anc test ptag f, ?_⟩
  intro env rule re plen st nid v hfind hproc
  unfold XorcistReplacer.scanStep
  rw [hfind]
  simp [hproc]

/-- Witness for C3 at a concrete input: the element-scan step on a page
whose only element is already marked processed changes nothing. -/
theorem c3_processed_permanence_witness :
    XorcistReplacer.scanStep cexEnv cexRule ⟨fun _ => true, fun s _ => s⟩ 4
        wStateProcessed 5 = wStateProcessed :=
  c3_processed_permanence.2.2 cexEnv cexRule ⟨fun _ => true, fun s _ => s⟩ 4
    wStateProcessed 5 ⟨"div", true, false, .nil⟩ (by decide) rfl
